import Mathlib

/-!
Verification of the PowerREPL server/client (`src/index.ts`) against its
natural-language specification.  The development shallowly embeds the
handshake/session logic of `serve`, the evaluation-error classification,
the client-side prompt fix, interrupt state machine, history store, and
the port-file fallback.  External collaborators (Node's `JSON.parse`,
`vm.runInThisContext`, the readline interface's most-recent-first history
convention, `repl.start`) are modelled at their documented interfaces;
everything else is translated directly from the source.
-/

namespace PowerRepl

/-! ## JSON values (result of `JSON.parse` on the first frame) -/

/-- A JSON value as produced by `JSON.parse`.  Objects are association
lists; for duplicate keys JavaScript keeps the last occurrence, which
`lookupField` reproduces. -/
inductive Json where
  | null
  | bool (b : Bool)
  | num (n : Int)
  | str (s : String)
  | arr (elems : List Json)
  | obj (fields : List (String × Json))

/-- Property lookup on a JavaScript object built by `JSON.parse`:
the last occurrence of a duplicated key wins. -/
def lookupField (fields : List (String × Json)) (key : String) : Option Json :=
  fields.foldl (fun acc kv => if kv.1 = key then some kv.2 else acc) none

/-- JavaScript property access `v.key` on a parsed JSON value:
throws a `TypeError` on `null` (`Except.error`), yields the field on an
object (`none` = `undefined` when absent), and `undefined` on any other
value (numbers, strings, booleans and arrays have no `noStdout`-like own
property). -/
def getProperty : Json → String → Except Unit (Option Json)
  | Json.null, _ => Except.error ()
  | Json.obj fields, key => Except.ok (lookupField fields key)
  | _, _ => Except.ok none

/-- JavaScript truthiness of a property-access result
(`undefined`, `null`, `false`, `0`, `""` are falsy). -/
def truthy : Option Json → Bool
  | none => false
  | some Json.null => false
  | some (Json.bool b) => b
  | some (Json.num n) => n != 0
  | some (Json.str s) => s != ""
  | some (Json.arr _) => true
  | some (Json.obj _) => true

/-- An optional field of type string. -/
def optStr : Option Json → Bool
  | none => true
  | some (Json.str _) => true
  | _ => false

/-- An optional field of type boolean. -/
def optBool : Option Json → Bool
  | none => true
  | some (Json.bool _) => true
  | _ => false

/-- An optional field of numeric type. -/
def optNum : Option Json → Bool
  | none => true
  | some (Json.num _) => true
  | _ => false

/-- A valid `HandshakeFrame` per the spec's data model: a JSON object whose
optional fields `prompt`, `history` (strings), `noStdout`,
`removeHistoryDuplicates` (booleans), `historySize`, `timeout` (numbers)
are well-typed when present. -/
def isHandshakeFrame : Json → Bool
  | Json.obj fields =>
    optStr (lookupField fields "prompt") &&
    optBool (lookupField fields "noStdout") &&
    optStr (lookupField fields "history") &&
    optNum (lookupField fields "historySize") &&
    optNum (lookupField fields "timeout") &&
    optBool (lookupField fields "removeHistoryDuplicates")
  | _ => false

/-! ## Server-side per-connection state machine (`serve`, `src/index.ts`)

One accepted socket of the `net.createServer` callback.  The socket's
`once("data")` handler parses the first frame inside a `try`: on success it
conditionally adds the socket to `stdoutSessions` and calls `repl.start`;
on any throw (`JSON.parse` failure, or the `connOpts.noStdout` property
access throwing on a parsed `null`) it destroys the socket.  The repl's
`exit` event conditionally deletes the socket from `stdoutSessions` and
destroys it; socket `close` closes the repl server, which (input stream
ended) makes the REPL emit `exit`. -/

structure ConnState where
  /-- the `once("data")` handler has already fired -/
  handshaked : Bool
  /-- number of `repl.start` calls made for this connection -/
  sessionCount : Nat
  /-- the socket is currently a member of `stdoutSessions` -/
  inSet : Bool
  /-- truthiness of `connOpts.noStdout` captured by the handshake -/
  noStdout : Bool
  /-- the socket has been destroyed / has closed -/
  closed : Bool
deriving DecidableEq, Repr

/-- State of a freshly accepted connection. -/
def initConn : ConnState :=
  { handshaked := false, sessionCount := 0, inSet := false,
    noStdout := false, closed := false }

/-- Events observable on one server-side connection: a data frame (with the
result of `JSON.parse` on its bytes, `none` = parse threw), the REPL's
`exit` event (`.exit` command / end of input), and the socket's `close`. -/
inductive ServerEvent where
  | dataFrame (parsed : Option Json)
  | exitCmd
  | sockClose

/-- One step of the connection's callback logic, translated from the
`serve` connection listener (`src/index.ts`).  `repl.start` is modelled as
the non-throwing construction of an evaluation context.  A socket `close`
ends the REPL's input stream, so the REPL emits `exit` and its handler
(delete from `stdoutSessions` unless `noStdout`, destroy) also runs. -/
def serverStep (st : ConnState) (ev : ServerEvent) : ConnState :=
  match ev with
  | ServerEvent.dataFrame parsed =>
    if st.closed || st.handshaked then st
    else
      match parsed with
      | none => { st with handshaked := true, closed := true }
      | some v =>
        match getProperty v "noStdout" with
        | Except.error _ => { st with handshaked := true, closed := true }
        | Except.ok nd =>
          { st with
            handshaked := true, inSet := !(truthy nd),
            noStdout := truthy nd, sessionCount := st.sessionCount + 1 }
  | ServerEvent.exitCmd =>
    if st.sessionCount > 0 then
      { st with
        inSet := if st.noStdout then st.inSet else false,
        closed := true }
    else st
  | ServerEvent.sockClose =>
    if st.sessionCount > 0 then
      { st with
        inSet := if st.noStdout then st.inSet else false,
        closed := true }
    else { st with closed := true }

/-- Run a connection from acceptance through a sequence of events. -/
def runServer (evs : List ServerEvent) : ConnState :=
  evs.foldl serverStep initConn

/-! ## Evaluation-error classification (`isRecoverableError` and the
`eval` callback of `repl.start`, `src/index.ts`) -/

/-- A JavaScript error value as seen by the `catch` block of the `eval`
callback: whether it is an `instanceof Error`, its `name`, `message`, and
its `stack` already split into lines. -/
structure JsError where
  isError : Bool
  name : String
  message : String
  stack : List String
deriving DecidableEq, Repr

/-- `s` starts with `p` (the anchored regex test `/^.../.test(s)` for a
literal pattern). -/
def startsWithStr (s p : String) : Bool :=
  p.toList.isPrefixOf s.toList

/-- Translated from `isRecoverableError` (`src/index.ts`): an error is
recoverable when it is an `Error` named `SyntaxError` whose message
matches `/^(Unexpected end of input|Unexpected token)/`. -/
def isRecoverableError (e : JsError) : Bool :=
  if e.isError && e.name == "SyntaxError" then
    startsWithStr e.message "Unexpected end of input" ||
      startsWithStr e.message "Unexpected token"
  else false

/-- `/Error:/.test(line)`: the line contains the substring `Error:`. -/
def mentionsError (line : String) : Bool :=
  (line.splitOn "Error:").length > 1

/-- Stack truncation performed in the `eval` callback before reporting an
evaluation failure: drop the first line, and if some remaining line
matches `/Error:/` keep only the lines up to and including the first such
line. -/
def truncateStack (stack : List String) : List String :=
  let lines := stack.drop 1
  match lines.findIdx? mentionsError with
  | some i => lines.take (i + 1)
  | none => lines

/-- Result delivered through the repl `eval` callback: a successful value,
a `repl.Recoverable` (multi-line continuation), or an evaluation failure
reported as the line's result. -/
inductive EvalOutcome where
  | success (value : Json)
  | continuation
  | failure (err : JsError)

/-- The `try`/`catch` of the `eval` callback (`src/index.ts`):
`vm.runInThisContext` (external) either returns a value or throws; a
thrown error classified by `isRecoverableError` is wrapped in
`repl.Recoverable`, every other error has its stack truncated (when it is
an `Error`) and is passed to the callback as a failure. -/
def evalCallback (result : Except JsError Json) : EvalOutcome :=
  match result with
  | Except.ok v => EvalOutcome.success v
  | Except.error e =>
    if isRecoverableError e then EvalOutcome.continuation
    else if e.isError then
      EvalOutcome.failure { e with stack := truncateStack e.stack }
    else EvalOutcome.failure e

/-! ## History store (`connect`, `src/index.ts`)

File contents are byte sequences modelled as `List Char`;
`content.split("\n")` and `lines.join("\n")` become `splitLines` and
`joinLines`. -/

/-- JavaScript `s.split("\n")` on a byte sequence. -/
def splitLines : List Char → List (List Char)
  | [] => [[]]
  | c :: rest =>
    if c = '\n' then [] :: splitLines rest
    else
      match splitLines rest with
      | [] => [[c]]
      | l :: ls => (c :: l) :: ls

/-- JavaScript `lines.join("\n")`. -/
def joinLines : List (List Char) → List Char
  | [] => []
  | [l] => l
  | l :: l2 :: ls => l ++ '\n' :: joinLines (l2 :: ls)

/-- Loading history at connection start (`connect`): read the file, split
on newline, and reverse into the readline interface's most-recent-first
order. -/
def loadHistory (content : List Char) : List (List Char) :=
  (splitLines content).reverse

/-- The readline interface's history-add convention (external collaborator,
documented most-recent-first order): a submitted line is prepended to the
in-memory history. -/
def addHistoryLine (h : List (List Char)) (line : List Char) : List (List Char) :=
  line :: h

/-- In-memory history after patching the loaded lines into the readline
interface and then submitting `submitted` in order. -/
def sessionHistory (loaded : List (List Char)) (submitted : List (List Char)) :
    List (List Char) :=
  submitted.foldl addHistoryLine loaded

/-- Saving history on socket close (`connect`): reverse the in-memory
history back into oldest-first order and join with newlines. -/
def saveHistory (h : List (List Char)) : List Char :=
  joinLines h.reverse

/-! ## Client-side prompt fix (`socket.on("data")` in `connect`) -/

/-- `buf.slice(0, -n)`: drop the last `n` bytes (empty when `n` exceeds
the length). -/
def dropLastBytes (n : Nat) (buf : List Char) : List Char :=
  buf.take (buf.length - n)

/-- Result of the client's inbound-chunk handler: the readline prompt in
effect afterwards and the bytes written to the local terminal. -/
structure FixResult where
  prompt : List Char
  output : List Char
deriving DecidableEq, Repr

/-- Translated from the `socket.on("data")` handler of `connect`
(`src/index.ts`): `str = buf.slice(0, 5).toString()` is compared for
equality with `"... "`, the configured prompt, and the doubled prompt; the
doubled-prompt case drops the trailing prompt-length bytes before writing
`buf` to the terminal. -/
def fixPrompt (configPrompt curPrompt buf : List Char) : FixResult :=
  if buf.take 5 = "... ".toList then { prompt := "... ".toList, output := buf }
  else if buf.take 5 = configPrompt then { prompt := configPrompt, output := buf }
  else if buf.take 5 = configPrompt ++ configPrompt then
    { prompt := curPrompt, output := dropLastBytes configPrompt.length buf }
  else { prompt := curPrompt, output := buf }

/-! ## Client interrupt state machine (`connect`, `src/index.ts`) -/

/-- Client-side state: the `canExit` flag, the readline interface's
current `_prompt`, whether the socket has been destroyed, and the lines
written to the socket so far. -/
structure ClientState where
  canExit : Bool
  prompt : List Char
  destroyed : Bool
  sent : List (List Char)
deriving DecidableEq, Repr

/-- Client-side events: a SIGINT from the keyboard, a submitted line, and
an inbound data chunk from the server. -/
inductive ClientEvent where
  | sigint
  | line (s : List Char)
  | data (chunk : List Char)

/-- One step of the client's event handlers (`connect`, `src/index.ts`):
a submitted line clears `canExit` and writes `line + "\n"`; a data chunk
runs the prompt fix; SIGINT destroys the socket when `canExit` is set,
sends `".break\n"` when mid multi-line input (prompt `"... "`), and
otherwise arms `canExit`.  After the socket is destroyed the process
exits, so the state is frozen. -/
def clientStep (configPrompt : List Char) (st : ClientState) (ev : ClientEvent) :
    ClientState :=
  if st.destroyed then st
  else
    match ev with
    | ClientEvent.line s =>
      { st with canExit := false, sent := st.sent ++ [s ++ ['\n']] }
    | ClientEvent.data chunk =>
      { st with prompt := (fixPrompt configPrompt st.prompt chunk).prompt }
    | ClientEvent.sigint =>
      if st.canExit then { st with destroyed := true }
      else if st.prompt = "... ".toList then
        { st with sent := st.sent ++ [".break\n".toList] }
      else { st with canExit := true }

/-- Client state right after `connect` resolves: `canExit = false` and the
readline prompt is the configured prompt. -/
def initClient (configPrompt : List Char) : ClientState :=
  { canExit := false, prompt := configPrompt, destroyed := false, sent := [] }

/-- Run the client through a sequence of events. -/
def runClient (configPrompt : List Char) (evs : List ClientEvent) : ClientState :=
  evs.foldl (clientStep configPrompt) (initClient configPrompt)

/-! ## Port-file fallback (`serve`/`connect` on a Windows cluster worker) -/

/-- JavaScript `String(port)`: the decimal digits of the port, most
significant first (`"0"` for zero), as the bytes written to the socket
path by `serve`. -/
def natToDecimal (n : Nat) : List Char :=
  if n = 0 then ['0']
  else ((Nat.digits 10 n).reverse).map Nat.digitChar

/-- JavaScript `Number(content)` applied to the digit-only file written by
`serve`: fold the decimal digits. -/
def decimalToNat (cs : List Char) : Nat :=
  cs.foldl (fun n c => n * 10 + (c.toNat - 48)) 0

/-- Contents of the file `serve` writes at the socket path after listening
on an ephemeral loopback port (`fs.writeFile(sockPath, String(port))`). -/
def portFileContent (port : Nat) : List Char :=
  natToDecimal port

/-- A TCP connect target. -/
structure ConnectTarget where
  host : String
  port : Nat
deriving DecidableEq, Repr

/-- The target `connect` dials after reading the port file on the fallback
path: `net` connection to `127.0.0.1` at `Number(await fs.readFile(...))`. -/
def connectTargetFromFile (content : List Char) : ConnectTarget :=
  { host := "127.0.0.1", port := decimalToNat content }

/-! ## Handshake frame construction (`connect`, `src/index.ts`) -/

/-- The client-side `ConnectOptions` interface: every documented field,
each optional (absent = not supplied by the caller). -/
structure ConnectOptions where
  path : Option String
  port : Option Nat
  host : Option String
  timeout : Option Nat
  prompt : Option String
  history : Option String
  historySize : Option Nat
  removeHistoryDuplicates : Option Bool
  noStdout : Option Bool
deriving DecidableEq, Repr

/-- `ConnectOptions` with no field supplied. -/
def emptyOptions : ConnectOptions :=
  { path := none, port := none, host := none, timeout := none,
    prompt := none, history := none, historySize := none,
    removeHistoryDuplicates := none, noStdout := none }

/-- The JSON object the client serializes and writes as the handshake
frame: `pick(options, ["prompt", "noStdout"])` followed by
`JSON.stringify` (absent fields are omitted). -/
def pickHandshake (o : ConnectOptions) : List (String × Json) :=
  (match o.prompt with
   | some p => [("prompt", Json.str p)]
   | none => []) ++
  (match o.noStdout with
   | some b => [("noStdout", Json.bool b)]
   | none => [])

/-- The names of the `HandshakeFrame` fields the caller supplied in its
`ConnectOptions`. -/
def suppliedHandshakeFields (o : ConnectOptions) : List String :=
  (if o.prompt.isSome then ["prompt"] else []) ++
  (if o.noStdout.isSome then ["noStdout"] else []) ++
  (if o.history.isSome then ["history"] else []) ++
  (if o.historySize.isSome then ["historySize"] else []) ++
  (if o.timeout.isSome then ["timeout"] else []) ++
  (if o.removeHistoryDuplicates.isSome then ["removeHistoryDuplicates"] else [])

/-- The connection state after the handshake has failed: the `catch` block
destroyed the socket, no session exists, no registration happened. -/
def destroyedConn : ConnState :=
  { handshaked := true, sessionCount := 0, inSet := false,
    noStdout := false, closed := true }

/-! ## Theorems -/

theorem serverStep_destroyedConn (e : ServerEvent) :
    serverStep destroyedConn e = destroyedConn := by
  cases e <;> rfl

theorem foldl_serverStep_destroyedConn (evs : List ServerEvent) :
    evs.foldl serverStep destroyedConn = destroyedConn := by
  induction evs with
  | nil => rfl
  | cons e t ih => rw [List.foldl_cons, serverStep_destroyedConn, ih]

theorem serverStep_preserves_handshaked (st : ConnState) (e : ServerEvent)
    (h : st.handshaked = true) :
    (serverStep st e).handshaked = true ∧
    (serverStep st e).sessionCount = st.sessionCount := by
  cases e with
  | dataFrame parsed => simp [serverStep, h]
  | exitCmd =>
    simp only [serverStep]
    split <;> simp [h]
  | sockClose =>
    simp only [serverStep]
    split <;> simp [h]

theorem foldl_sessionCount_stable (evs : List ServerEvent) (st : ConnState)
    (h : st.handshaked = true) :
    (evs.foldl serverStep st).sessionCount = st.sessionCount := by
  induction evs generalizing st with
  | nil => rfl
  | cons e t ih =>
    rw [List.foldl_cons]
    rcases serverStep_preserves_handshaked st e h with ⟨h1, h2⟩
    rw [ih (serverStep st e) h1, h2]

/-- C1: a first frame whose bytes are not valid JSON destroys the
connection, never creates a REPL session (no `repl.start` call), and never
adds the socket to `stdoutSessions`, regardless of any later events on the
connection.  `ServerEvent.dataFrame none` is a first data frame on which
`JSON.parse` throws. -/
theorem C1_invalid_first_frame_destroys (rest : List ServerEvent) :
    (runServer (ServerEvent.dataFrame none :: rest)).sessionCount = 0 ∧
    (runServer (ServerEvent.dataFrame none :: rest)).inSet = false ∧
    (runServer (ServerEvent.dataFrame none :: rest)).closed = true := by
  have h : runServer (ServerEvent.dataFrame none :: rest) = destroyedConn := by
    show (ServerEvent.dataFrame none :: rest).foldl serverStep initConn = destroyedConn
    rw [List.foldl_cons]
    exact foldl_serverStep_destroyedConn rest
  rw [h]
  exact ⟨rfl, rfl, rfl⟩

/-- C2: a first frame that parses as a valid `HandshakeFrame` creates
exactly one REPL session for the connection — one `repl.start` call, and
the count stays one under every later event because the data handler is
registered with `once` — and the socket is registered in `stdoutSessions`
if and only if the frame's `noStdout` field is absent or `false`. -/
theorem C2_valid_handshake_one_session (v : Json) (rest : List ServerEvent)
    (h : isHandshakeFrame v = true) :
    (runServer (ServerEvent.dataFrame (some v) :: rest)).sessionCount = 1 ∧
    ((serverStep initConn (ServerEvent.dataFrame (some v))).inSet = true ↔
      (getProperty v "noStdout" = Except.ok none ∨
       getProperty v "noStdout" = Except.ok (some (Json.bool false)))) := by
  cases v with
  | null => simp [isHandshakeFrame] at h
  | bool b => simp [isHandshakeFrame] at h
  | num n => simp [isHandshakeFrame] at h
  | str s => simp [isHandshakeFrame] at h
  | arr xs => simp [isHandshakeFrame] at h
  | obj fields =>
    have hb : optBool (lookupField fields "noStdout") = true := by
      simp only [isHandshakeFrame, Bool.and_eq_true] at h
      exact h.1.1.1.1.2
    constructor
    · show ((ServerEvent.dataFrame (some (Json.obj fields)) :: rest).foldl
        serverStep initConn).sessionCount = 1
      rw [List.foldl_cons]
      have h1 : (serverStep initConn
          (ServerEvent.dataFrame (some (Json.obj fields)))).handshaked = true := by
        simp [serverStep, initConn, getProperty]
      rw [foldl_sessionCount_stable rest _ h1]
      simp [serverStep, initConn, getProperty]
    · match hnd : lookupField fields "noStdout" with
      | none =>
        simp [serverStep, initConn, getProperty, hnd, truthy]
      | some (Json.bool b) =>
        cases b <;>
          simp [serverStep, initConn, getProperty, hnd, truthy]
      | some Json.null => rw [hnd] at hb; simp [optBool] at hb
      | some (Json.num n) => rw [hnd] at hb; simp [optBool] at hb
      | some (Json.str s) => rw [hnd] at hb; simp [optBool] at hb
      | some (Json.arr xs) => rw [hnd] at hb; simp [optBool] at hb
      | some (Json.obj fs) => rw [hnd] at hb; simp [optBool] at hb

/-- C2 witness: the concrete handshake frame
`{"prompt": "> ", "noStdout": false}` followed by a further data frame and
the exit command still yields exactly one session, and the socket was
registered. -/
theorem C2_witness :
    isHandshakeFrame
      (Json.obj [("prompt", Json.str "> "), ("noStdout", Json.bool false)]) = true ∧
    ((runServer (ServerEvent.dataFrame
        (some (Json.obj [("prompt", Json.str "> "), ("noStdout", Json.bool false)])) ::
        [ServerEvent.dataFrame (some Json.null), ServerEvent.exitCmd])).sessionCount = 1 ∧
      ((serverStep initConn (ServerEvent.dataFrame
        (some (Json.obj [("prompt", Json.str "> "), ("noStdout", Json.bool false)])))).inSet
          = true ↔
        (getProperty (Json.obj [("prompt", Json.str "> "), ("noStdout", Json.bool false)])
            "noStdout" = Except.ok none ∨
         getProperty (Json.obj [("prompt", Json.str "> "), ("noStdout", Json.bool false)])
            "noStdout" = Except.ok (some (Json.bool false))))) :=
  ⟨by rfl,
   C2_valid_handshake_one_session
     (Json.obj [("prompt", Json.str "> "), ("noStdout", Json.bool false)])
     [ServerEvent.dataFrame (some Json.null), ServerEvent.exitCmd] (by rfl)⟩

/-- Invariant of a reachable connection state: a registered socket belongs
to a live session that did not opt out, and before the handshake nothing
is registered and no session exists. -/
def ConnInv (st : ConnState) : Prop :=
  (st.inSet = true → st.closed = false ∧ st.sessionCount = 1 ∧ st.noStdout = false) ∧
  (st.handshaked = false → st.inSet = false ∧ st.sessionCount = 0)

theorem connInv_init : ConnInv initConn := by
  constructor <;> intro h <;> simp [initConn] at h ⊢

theorem connInv_step (st : ConnState) (e : ServerEvent) (h : ConnInv st) :
    ConnInv (serverStep st e) := by
  obtain ⟨h1, h2⟩ := h
  cases e with
  | dataFrame parsed =>
    by_cases hc : (st.closed || st.handshaked) = true
    · simp only [serverStep, hc, if_true]
      exact ⟨h1, h2⟩
    · have hcl : st.closed = false := by
        cases hx : st.closed
        · rfl
        · simp [hx] at hc
      have hh : st.handshaked = false := by
        cases hx : st.handshaked
        · rfl
        · simp [hx] at hc
      obtain ⟨hi, hs⟩ := h2 hh
      cases parsed with
      | none =>
        refine ⟨fun hx => ?_, fun hx => ?_⟩
        · simp [serverStep, hcl, hh, hi] at hx
        · simp [serverStep, hcl, hh] at hx
      | some v =>
        cases hgp : getProperty v "noStdout" with
        | error u =>
          refine ⟨fun hx => ?_, fun hx => ?_⟩
          · simp [serverStep, hcl, hh, hgp, hi] at hx
          · simp [serverStep, hcl, hh, hgp] at hx
        | ok nd =>
          refine ⟨fun hx => ?_, fun hx => ?_⟩
          · simp [serverStep, hcl, hh, hgp] at hx ⊢
            exact ⟨hs, hx⟩
          · simp [serverStep, hcl, hh, hgp] at hx
  | exitCmd =>
    by_cases hp : st.sessionCount > 0
    · refine ⟨fun hx => ?_, fun hx => ?_⟩
      · simp only [serverStep, hp, if_true] at hx
        cases hns : st.noStdout
        · simp [hns] at hx
        · simp only [hns, if_true] at hx
          have := (h1 hx).2.2
          rw [hns] at this
          cases this
      · simp only [serverStep, hp, if_true] at hx
        obtain ⟨hi, hs⟩ := h2 hx
        rw [hs] at hp
        cases hp
    · simp only [serverStep, hp, if_false]
      exact ⟨h1, h2⟩
  | sockClose =>
    by_cases hp : st.sessionCount > 0
    · refine ⟨fun hx => ?_, fun hx => ?_⟩
      · simp only [serverStep, hp, if_true] at hx
        cases hns : st.noStdout
        · simp [hns] at hx
        · simp only [hns, if_true] at hx
          have := (h1 hx).2.2
          rw [hns] at this
          cases this
      · simp only [serverStep, hp, if_true] at hx
        obtain ⟨hi, hs⟩ := h2 hx
        rw [hs] at hp
        cases hp
    · refine ⟨fun hx => ?_, fun hx => ?_⟩
      · simp only [serverStep, hp, if_false] at hx
        have := (h1 hx).2.1
        rw [this] at hp
        exact absurd (by omega) hp
      · simp only [serverStep, hp, if_false] at hx ⊢
        exact h2 hx

theorem connInv_run (evs : List ServerEvent) : ConnInv (runServer evs) := by
  show ConnInv (evs.foldl serverStep initConn)
  have h : ∀ (l : List ServerEvent) (st : ConnState), ConnInv st →
      ConnInv (l.foldl serverStep st) := by
    intro l
    induction l with
    | nil => intro st h; exact h
    | cons e t ih =>
      intro st h
      rw [List.foldl_cons]
      exact ih _ (connInv_step st e h)
  exact h evs initConn connInv_init

theorem exitCmd_removes (st : ConnState) (h : ConnInv st) :
    (serverStep st ServerEvent.exitCmd).inSet = false := by
  simp only [serverStep]
  by_cases hp : st.sessionCount > 0
  · rw [if_pos hp]
    simp only
    cases hns : st.noStdout
    · simp
    · simp only [if_pos rfl]
      cases hx : st.inSet
      · rfl
      · have := (h.1 hx).2.2
        rw [hns] at this
        cases this
  · rw [if_neg hp]
    cases hx : st.inSet
    · rfl
    · have := (h.1 hx).2.1
      rw [this] at hp
      exact absurd (by omega) hp

theorem sockClose_removes (st : ConnState) (h : ConnInv st) :
    (serverStep st ServerEvent.sockClose).inSet = false := by
  simp only [serverStep]
  by_cases hp : st.sessionCount > 0
  · rw [if_pos hp]
    simp only
    cases hns : st.noStdout
    · simp
    · simp only [if_pos rfl]
      cases hx : st.inSet
      · rfl
      · have := (h.1 hx).2.2
        rw [hns] at this
        cases this
  · rw [if_neg hp]
    simp only
    cases hx : st.inSet
    · rfl
    · have := (h.1 hx).2.1
      rw [this] at hp
      exact absurd (by omega) hp

theorem exitCmd_idempotent (st : ConnState) :
    serverStep (serverStep st ServerEvent.exitCmd) ServerEvent.exitCmd =
      serverStep st ServerEvent.exitCmd := by
  cases st with
  | mk hs sc iS nS cl =>
    simp only [serverStep]
    by_cases hp : sc > 0
    · rw [if_pos hp]
      simp only
      rw [if_pos hp]
      cases nS <;> simp
    · rw [if_neg hp]
      simp only
      rw [if_neg hp]

theorem sockClose_idempotent (st : ConnState) :
    serverStep (serverStep st ServerEvent.sockClose) ServerEvent.sockClose =
      serverStep st ServerEvent.sockClose := by
  cases st with
  | mk hs sc iS nS cl =>
    simp only [serverStep]
    by_cases hp : sc > 0
    · rw [if_pos hp]
      simp only
      rw [if_pos hp]
      cases nS <;> simp
    · rw [if_neg hp]
      simp only
      rw [if_neg hp]

/-- C8: on every exit path of a session (explicit exit command or socket
close), the socket ends up outside `stdoutSessions`; the removal is
idempotent (running the exit or close handler again changes nothing, so
an entry already absent — e.g. never added because of `noStdout` — is
fine); and no reachable connection state keeps a closed socket in the
set. -/
theorem C8_registration_set_invariant (evs : List ServerEvent) :
    ((runServer evs).closed && (runServer evs).inSet) = false ∧
    (serverStep (runServer evs) ServerEvent.exitCmd).inSet = false ∧
    (serverStep (runServer evs) ServerEvent.sockClose).inSet = false ∧
    serverStep (serverStep (runServer evs) ServerEvent.exitCmd) ServerEvent.exitCmd =
      serverStep (runServer evs) ServerEvent.exitCmd ∧
    serverStep (serverStep (runServer evs) ServerEvent.sockClose) ServerEvent.sockClose =
      serverStep (runServer evs) ServerEvent.sockClose := by
  have h := connInv_run evs
  refine ⟨?_, exitCmd_removes _ h, sockClose_removes _ h,
    exitCmd_idempotent _, sockClose_idempotent _⟩
  cases hx : (runServer evs).inSet
  · simp
  · rw [(h.1 hx).1]; rfl

/-- C10: handshake acceptance is not uniform over valid JSON values that
are not objects.  The frames `123`, `"hi"` and `true` (all valid JSON) are
accepted — a session is created and the socket is registered for fanout —
while the frame `null` destroys the connection (the `connOpts.noStdout`
property access throws inside the `try` block) and creates no session. -/
theorem C10_non_object_frames :
    serverStep initConn (ServerEvent.dataFrame (some (Json.num 123))) =
      { handshaked := true, sessionCount := 1, inSet := true,
        noStdout := false, closed := false } ∧
    serverStep initConn (ServerEvent.dataFrame (some (Json.str "hi"))) =
      { handshaked := true, sessionCount := 1, inSet := true,
        noStdout := false, closed := false } ∧
    serverStep initConn (ServerEvent.dataFrame (some (Json.bool true))) =
      { handshaked := true, sessionCount := 1, inSet := true,
        noStdout := false, closed := false } ∧
    serverStep initConn (ServerEvent.dataFrame (some Json.null)) =
      { handshaked := true, sessionCount := 0, inSet := false,
        noStdout := false, closed := true } :=
  ⟨rfl, rfl, rfl, rfl⟩

/-- C4 counterexample: the claim "an error thrown at runtime by otherwise
syntactically valid code is always classified as an evaluation failure,
never as continuation" is false.  The syntactically valid program
`throw new SyntaxError("Unexpected end of input")` throws, at runtime, an
`Error` named `SyntaxError` with message `Unexpected end of input`, and
`isRecoverableError` classifies exactly by that shape, so the `eval`
callback wraps it in `repl.Recoverable` (continuation). -/
theorem C4_counterexample :
    ¬ (∀ e : JsError,
        evalCallback (Except.error e) ≠ EvalOutcome.continuation) := by
  intro h
  exact h { isError := true, name := "SyntaxError",
            message := "Unexpected end of input", stack := [] } (by rfl)

/-- C4 (amended): the classification looks only at the thrown error, not
at the submitted input: the `eval` callback signals multi-line
continuation iff evaluation threw an `Error` named `SyntaxError` whose
message starts with `Unexpected end of input` or `Unexpected token`; every
other thrown error — in particular every runtime error with a different
name or message — is reported as the line's evaluation failure. -/
theorem C4_amended_classification (r : Except JsError Json) :
    evalCallback r = EvalOutcome.continuation ↔
      ∃ e, r = Except.error e ∧ isRecoverableError e = true := by
  cases r with
  | ok v => simp [evalCallback]
  | error e =>
    by_cases h : isRecoverableError e = true
    · simp [evalCallback, h]
    · have h' : isRecoverableError e = false := by
        cases hx : isRecoverableError e
        · rfl
        · exact absurd hx h
      constructor
      · intro hx
        exfalso
        by_cases hE : e.isError = true
        · simp [evalCallback, h', hE] at hx
        · have hE' : e.isError = false := by
            cases hxx : e.isError
            · rfl
            · exact absurd hxx hE
          simp [evalCallback, h', hE'] at hx
      · rintro ⟨e2, he, hr⟩
        injection he with he2
        subst he2
        rw [hr] at h'
        cases h'

theorem splitLines_ne_nil (s : List Char) : splitLines s ≠ [] := by
  induction s with
  | nil => simp [splitLines]
  | cons c rest ih =>
    simp only [splitLines]
    by_cases hc : c = '\n'
    · simp [hc]
    · rw [if_neg hc]
      cases h : splitLines rest with
      | nil => simp
      | cons l ls => simp

theorem joinLines_splitLines (s : List Char) : joinLines (splitLines s) = s := by
  induction s with
  | nil => rfl
  | cons c rest ih =>
    by_cases hc : c = '\n'
    · subst hc
      simp only [splitLines, if_pos rfl]
      cases h : splitLines rest with
      | nil => exact absurd h (splitLines_ne_nil rest)
      | cons l ls =>
        rw [h] at ih
        show joinLines ([] :: l :: ls) = '\n' :: rest
        simp only [joinLines, List.nil_append]
        rw [ih]
    · simp only [splitLines, if_neg hc]
      cases h : splitLines rest with
      | nil => exact absurd h (splitLines_ne_nil rest)
      | cons l ls =>
        rw [h] at ih
        cases ls with
        | nil =>
          show joinLines [c :: l] = c :: rest
          simp only [joinLines]
          simp only [joinLines] at ih
          rw [ih]
        | cons l2 ls2 =>
          show joinLines ((c :: l) :: l2 :: ls2) = c :: rest
          simp only [joinLines] at ih ⊢
          rw [List.cons_append, ih]

theorem splitLines_no_newline (l : List Char) (h : '\n' ∉ l) :
    splitLines l = [l] := by
  induction l with
  | nil => rfl
  | cons c rest ih =>
    rw [List.mem_cons] at h
    push_neg at h
    obtain ⟨h1, h2⟩ := h
    have hc : ¬ (c = '\n') := fun hx => h1 hx.symm
    simp only [splitLines, if_neg hc]
    rw [ih h2]

theorem splitLines_append (l s : List Char) (h : '\n' ∉ l) :
    splitLines (l ++ '\n' :: s) = l :: splitLines s := by
  induction l with
  | nil => rfl
  | cons c rest ih =>
    rw [List.mem_cons] at h
    push_neg at h
    obtain ⟨h1, h2⟩ := h
    have hc : ¬ (c = '\n') := fun hx => h1 hx.symm
    show splitLines (c :: (rest ++ '\n' :: s)) = (c :: rest) :: splitLines s
    rw [splitLines, if_neg hc, ih h2]

theorem splitLines_joinLines (L : List (List Char)) (h0 : L ≠ [])
    (h : ∀ l ∈ L, '\n' ∉ l) : splitLines (joinLines L) = L := by
  induction L with
  | nil => exact absurd rfl h0
  | cons l ls ih =>
    cases ls with
    | nil =>
      simp only [joinLines]
      exact splitLines_no_newline l (h l (List.mem_cons_self l []))
    | cons l2 ls2 =>
      simp only [joinLines]
      rw [splitLines_append l (joinLines (l2 :: ls2)) (h l (List.mem_cons_self _ _))]
      rw [ih (by simp) (fun x hx => h x (List.mem_cons_of_mem l hx))]

theorem sessionHistory_eq (loaded submitted : List (List Char)) :
    sessionHistory loaded submitted = submitted.reverse ++ loaded := by
  induction submitted generalizing loaded with
  | nil => rfl
  | cons s t ih =>
    show List.foldl addHistoryLine (s :: loaded) t = (s :: t).reverse ++ loaded
    rw [show List.foldl addHistoryLine (s :: loaded) t =
          sessionHistory (s :: loaded) t from rfl]
    rw [ih (s :: loaded)]
    simp [List.reverse_cons, List.append_assoc]

/-- C3: history round-trip.  Loading a history file (split on newline,
reverse into most-recent-first readline order) and saving it back at
connection close (reverse again, join with newlines) reproduces the file
byte-for-byte when no lines were submitted; and when the file held lines
`L1..Ln` oldest-first and lines `S1..Sm` were submitted during the
session, the saved file holds `L1..Ln` followed by `S1..Sm`,
oldest-first. -/
theorem C3_history_round_trip (c : List Char) (L S : List (List Char)) :
    saveHistory (sessionHistory (loadHistory c) []) = c ∧
    (L ≠ [] → (∀ l ∈ L, '\n' ∉ l) →
      saveHistory (sessionHistory (loadHistory (joinLines L)) S) =
        joinLines (L ++ S)) := by
  constructor
  · show joinLines (splitLines c).reverse.reverse = c
    rw [List.reverse_reverse]
    exact joinLines_splitLines c
  · intro h0 h
    show joinLines (sessionHistory (splitLines (joinLines L)).reverse S).reverse =
      joinLines (L ++ S)
    rw [splitLines_joinLines L h0 h, sessionHistory_eq]
    rw [List.reverse_append, List.reverse_reverse, List.reverse_reverse]

/-- C3 witness: the file `a\nb` with the line `c` submitted during the
session saves as `a\nb\nc`. -/
theorem C3_witness :
    (([['a'], ['b']] : List (List Char)) ≠ [] ∧
      (∀ l ∈ ([['a'], ['b']] : List (List Char)), '\n' ∉ l)) ∧
    saveHistory (sessionHistory (loadHistory (joinLines [['a'], ['b']])) [['c']]) =
      joinLines ([['a'], ['b']] ++ [['c']]) :=
  ⟨⟨by decide, by decide⟩,
    (C3_history_round_trip [] [['a'], ['b']] [['c']]).2 (by decide) (by decide)⟩

/-- C5 counterexample: the claim that every chunk beginning with the
doubled prompt is rendered with one prompt-length prefix removed, and that
every chunk beginning with the continuation-prompt bytes switches the
displayed prompt, is false.  With the default prompt `"> "` the chunk
`"> > 1"` begins with `"> > "` yet is written verbatim, because the
handler compares `buf.slice(0, 5)` — the first five bytes — for equality,
not for a prefix match. -/
theorem C5_counterexample :
    ¬ (∀ (p cur buf : List Char), p ≠ [] →
        (buf.take (p.length + p.length) = p ++ p →
          (fixPrompt p cur buf).output = buf.drop p.length) ∧
        (buf.take 4 = "... ".toList →
          (fixPrompt p cur buf).prompt = "... ".toList)) := by
  intro h
  have hc := (h "> ".toList "> ".toList "> > 1".toList (by decide)).1 (by decide)
  revert hc
  decide

/-- C5 (amended): the correction applies only to chunks the five-byte
probe captures exactly.  A chunk that is exactly the doubled prompt is
rendered as a single prompt (the trailing prompt-length bytes are
dropped) with the displayed prompt unchanged; a chunk that is exactly
`"... "` switches the displayed prompt to the continuation form and is
written unchanged; and a chunk longer than five bytes that merely begins
with the doubled prompt is written verbatim with the prompt unchanged. -/
theorem C5_amended_prompt_fix (p cur : List Char) (h0 : p ≠ [])
    (h5 : 2 * p.length ≤ 5) (hne : p ++ p ≠ "... ".toList) :
    fixPrompt p cur (p ++ p) = { prompt := cur, output := p } ∧
    fixPrompt p cur "... ".toList =
      { prompt := "... ".toList, output := "... ".toList } ∧
    (∀ buf : List Char, 5 ≤ buf.length → 2 * p.length < 5 →
      buf.take (2 * p.length) = p ++ p →
      fixPrompt p cur buf = { prompt := cur, output := buf }) := by
  refine ⟨?_, ?_, ?_⟩
  · have hlen : (p ++ p).length ≤ 5 := by
      rw [List.length_append]; omega
    have htake : (p ++ p).take 5 = p ++ p := List.take_of_length_le hlen
    have hps : p ++ p ≠ p := by
      intro hx
      have hl := congrArg List.length hx
      rw [List.length_append] at hl
      have hz : p.length = 0 := by omega
      exact h0 (List.length_eq_zero.mp hz)
    have hdrop : dropLastBytes p.length (p ++ p) = p := by
      unfold dropLastBytes
      rw [List.length_append]
      have he : p.length + p.length - p.length = p.length := by omega
      rw [he]
      exact List.take_left p p
    unfold fixPrompt
    rw [htake, if_neg hne, if_neg hps, if_pos rfl, hdrop]
  · unfold fixPrompt
    rw [if_pos (by decide : ("... ".toList : List Char).take 5 = "... ".toList)]
  · intro buf hb h25 hpref
    have hl : (buf.take 5).length = 5 := by
      rw [List.length_take]
      omega
    have hcont : (("... ".toList : List Char)).length = 4 := by decide
    have n1 : buf.take 5 ≠ "... ".toList := by
      intro hx
      have := congrArg List.length hx
      rw [hl, hcont] at this
      omega
    have n2 : buf.take 5 ≠ p := by
      intro hx
      have := congrArg List.length hx
      rw [hl] at this
      omega
    have n3 : buf.take 5 ≠ p ++ p := by
      intro hx
      have := congrArg List.length hx
      rw [hl, List.length_append] at this
      omega
    unfold fixPrompt
    rw [if_neg n1, if_neg n2, if_neg n3]

/-- C5 witness: with the default prompt `"> "`, the exact chunk `"> > "`
renders as `"> "`. -/
theorem C5_witness :
    (("> ".toList : List Char) ≠ [] ∧ 2 * ("> ".toList : List Char).length ≤ 5 ∧
      ("> ".toList : List Char) ++ "> ".toList ≠ "... ".toList) ∧
    fixPrompt "> ".toList "> ".toList ("> ".toList ++ "> ".toList) =
      { prompt := "> ".toList, output := "> ".toList } :=
  ⟨⟨by decide, by decide, by decide⟩,
    (C5_amended_prompt_fix "> ".toList "> ".toList (by decide) (by decide)
      (by decide)).1⟩

/-- C6 counterexample: it is not true that from every reachable client
state two SIGINTs with no intervening submitted line destroy the socket.
After the server sends the continuation prompt `"... "` (reachable state:
mid multi-line input), each SIGINT takes the `.break` branch and never
arms `canExit`, so the connection stays open. -/
theorem C6_counterexample :
    ¬ (∀ (p : List Char) (evs : List ClientEvent),
        (clientStep p (clientStep p (runClient p evs) ClientEvent.sigint)
          ClientEvent.sigint).destroyed = true) := by
  intro h
  have hc := h "> ".toList [ClientEvent.data "... ".toList]
  revert hc
  decide

/-- C6 (amended): the two-stage interrupt protocol, with the mid
multi-line and already-armed cases made explicit.  (a) Two SIGINTs with no
intervening event terminate the connection provided the client is armed or
not mid multi-line input; (b) from an unarmed state, a SIGINT followed by
a submitted line leaves the connection as it was and resets `canExit` to
false; (c) from an open, unarmed, mid multi-line state a SIGINT sends
`".break\n"` to the server and neither arms nor destroys. -/
theorem C6_amended_interrupt (p : List Char) (st : ClientState) (s : List Char) :
    ((st.canExit = true ∨ st.prompt ≠ "... ".toList) →
      (clientStep p (clientStep p st ClientEvent.sigint)
        ClientEvent.sigint).destroyed = true) ∧
    (st.canExit = false →
      (clientStep p (clientStep p st ClientEvent.sigint)
        (ClientEvent.line s)).destroyed = st.destroyed ∧
      (clientStep p (clientStep p st ClientEvent.sigint)
        (ClientEvent.line s)).canExit = false) ∧
    (st.canExit = false → st.destroyed = false → st.prompt = "... ".toList →
      clientStep p st ClientEvent.sigint =
        { st with sent := st.sent ++ [".break\n".toList] }) := by
  obtain ⟨ce, pr, de, se⟩ := st
  have hq : ("... ".toList : List Char) = ['.', '.', '.', ' '] := rfl
  refine ⟨?_, ?_, ?_⟩
  · intro hyp
    cases de
    · cases ce
      · have hpr : ¬ (pr = ['.', '.', '.', ' ']) := by
          rcases hyp with hyp | hyp
          · exact Bool.noConfusion hyp
          · rw [hq] at hyp; exact hyp
        simp [clientStep, hpr]
      · simp [clientStep]
    · cases ce <;> simp [clientStep]
  · intro hyp
    cases hyp
    cases de
    · by_cases hpr : pr = ['.', '.', '.', ' '] <;> simp [clientStep, hpr]
    · simp [clientStep]
  · intro h1 h2 h3
    cases h1
    cases h2
    rw [hq] at h3
    cases h3
    simp [clientStep]

/-- C6 witness: (a) at the start state two SIGINTs destroy the socket;
(b) from the start state SIGINT then a line keeps it open with `canExit`
reset; (c) in the unarmed continuation-prompt state a SIGINT sends
`".break\n"`. -/
theorem C6_witness :
    (((initClient "> ".toList).canExit = true ∨
        (initClient "> ".toList).prompt ≠ "... ".toList) ∧
      (clientStep "> ".toList (clientStep "> ".toList (initClient "> ".toList)
        ClientEvent.sigint) ClientEvent.sigint).destroyed = true) ∧
    ((initClient "> ".toList).canExit = false ∧
      (clientStep "> ".toList (clientStep "> ".toList (initClient "> ".toList)
        ClientEvent.sigint) (ClientEvent.line "x".toList)).destroyed =
          (initClient "> ".toList).destroyed ∧
      (clientStep "> ".toList (clientStep "> ".toList (initClient "> ".toList)
        ClientEvent.sigint) (ClientEvent.line "x".toList)).canExit = false) ∧
    clientStep "> ".toList
        { canExit := false, prompt := "... ".toList, destroyed := false,
          sent := [] } ClientEvent.sigint =
      { canExit := false, prompt := "... ".toList, destroyed := false,
        sent := [".break\n".toList] } :=
  ⟨⟨Or.inr (by decide),
    (C6_amended_interrupt "> ".toList (initClient "> ".toList) "x".toList).1
      (Or.inr (by decide))⟩,
   ⟨by decide,
    (C6_amended_interrupt "> ".toList (initClient "> ".toList) "x".toList).2.1
      (by decide)⟩,
   by
    have hc := (C6_amended_interrupt "> ".toList
      { canExit := false, prompt := "... ".toList, destroyed := false,
        sent := [] } "x".toList).2.2 (by decide) (by decide) (by decide)
    rw [hc]
    decide⟩

theorem digitChar_inv : ∀ d : Nat, d < 10 → (Nat.digitChar d).toNat - 48 = d := by
  decide

theorem foldl_decimal (l : List Nat) (a : Nat) :
    List.foldl (fun n d => n * 10 + d) a l.reverse =
      a * 10 ^ l.length + Nat.ofDigits 10 l := by
  induction l generalizing a with
  | nil => simp
  | cons d t ih =>
    rw [List.reverse_cons, List.foldl_append]
    simp only [List.foldl_cons, List.foldl_nil]
    rw [ih]
    rw [Nat.ofDigits_cons, List.length_cons, pow_succ]
    ring

theorem decimalToNat_natToDecimal (n : Nat) :
    decimalToNat (natToDecimal n) = n := by
  by_cases h0 : n = 0
  · subst h0
    decide
  · unfold natToDecimal
    rw [if_neg h0]
    unfold decimalToNat
    rw [List.foldl_map]
    rw [List.foldl_ext (fun a c => a * 10 + ((Nat.digitChar c).toNat - 48))
      (fun a d => a * 10 + d) 0
      (fun a d hd => by
        show a * 10 + ((Nat.digitChar d).toNat - 48) = a * 10 + d
        rw [digitChar_inv d
          (Nat.digits_lt_base (by norm_num) (List.mem_reverse.mp hd))])]
    rw [foldl_decimal, Nat.ofDigits_digits, zero_mul, zero_add]

/-- C7: port-file fallback round-trip.  In the indirection context
(cluster worker on Windows), `serve` writes `String(port)` — the decimal
digits, nothing else — to the file at the socket path, and `connect` reads
the file, parses the decimal number, and dials `127.0.0.1` at exactly that
port. -/
theorem C7_port_file_round_trip (port : Nat) :
    connectTargetFromFile (portFileContent port) =
      { host := "127.0.0.1", port := port } := by
  unfold connectTargetFromFile portFileContent
  rw [decimalToNat_natToDecimal]

/-- C9 counterexample: the claim that every caller-supplied
`HandshakeFrame` field is present in the transmitted JSON object is
false: a caller supplying `history` (likewise `historySize`, `timeout`,
`removeHistoryDuplicates`) gets a frame without it, because the client
serializes only `pick(options, ["prompt", "noStdout"])`. -/
theorem C9_counterexample :
    ¬ (∀ (o : ConnectOptions) (f : String),
        f ∈ suppliedHandshakeFields o → f ∈ (pickHandshake o).map Prod.fst) := by
  intro h
  have hc := h { emptyOptions with history := some "/tmp/h" } "history"
  revert hc
  decide

/-- C9 (amended): the handshake frame carries exactly the caller-supplied
`prompt` and `noStdout` fields, with their values; the other
`ConnectOptions` fields (`history`, `historySize`, `timeout`,
`removeHistoryDuplicates`, and the transport fields) are consumed locally
by the client and never serialized. -/
theorem C9_amended_frame_fields (o : ConnectOptions) (f : String) :
    (f ∈ (pickHandshake o).map Prod.fst ↔
      ((f = "prompt" ∧ o.prompt.isSome = true) ∨
       (f = "noStdout" ∧ o.noStdout.isSome = true))) ∧
    lookupField (pickHandshake o) "prompt" = o.prompt.map Json.str ∧
    lookupField (pickHandshake o) "noStdout" = o.noStdout.map Json.bool := by
  obtain ⟨pa, po, ho, ti, pr, hi, hs, rd, ns⟩ := o
  cases pr <;> cases ns <;>
    simp [pickHandshake, lookupField]

end PowerRepl
